import Mathlib

/-!
Verification development for the gemini-live audio relay.

The repository is a Node/React application: a server-side WebSocket relay
(`server.js`) that forwards client audio to an upstream AI streaming
session and relays response fragments back, and a client-side React
component that captures microphone audio, encodes it to 16-bit PCM WAV,
sends it over the WebSocket, and plays returned audio fragments gaplessly.

This file shallowly embeds the relevant functions and event handlers:
JS numbers are modelled as rationals, buffers as lists, fallible calls as
Except values, and the event-driven handlers as explicit step functions on
small state records.
-/

namespace GeminiLive

/-- A JSON envelope sent from the relay to the client over the WebSocket.
Mirrors the three `type` values used by `ws.send(JSON.stringify({...}))`
in server.js: `audio` (with base64 data), `status`, and `error`. -/
inductive Envelope where
  | audio (data : String)
  | status (msg : String)
  | error (msg : String)
deriving DecidableEq

/-- An upstream response fragment as consumed by server.js: `message.data`
is the optional base64 audio payload, `turnComplete` models the truthiness
of `message.serverContent && message.serverContent.turnComplete`. -/
structure GenMessage where
  data : Option String
  turnComplete : Bool
deriving DecidableEq

/-- The envelopes `handleTurn` sends for one fragment: an `audio` envelope
when `message.data` is present, nothing otherwise (server.js line 61-63). -/
def turnSends (m : GenMessage) : List Envelope :=
  (m.data.map Envelope.audio).toList

/- ### Playback Scheduler (client, `playAudioBuffer`, lines 242-255) -/

/-- One call of `playAudioBuffer`: given the current `nextStartTime`, the
output clock value `now` (`outputAudioContextRef.current.currentTime`) and
the decoded fragment's `duration`, returns the computed `startTime` and the
updated `nextStartTime` (`startTime = max(nextStartTime, now)`;
`nextStartTime = startTime + audioBuffer.duration`). -/
def playAudioBuffer (nextStartTime now duration : ℚ) : ℚ × ℚ :=
  let startTime := max nextStartTime now
  (startTime, startTime + duration)

/-- Run the scheduler over a list of fragments, each given as a pair
`(now, duration)` of the clock value at its arrival and its duration.
Returns each fragment paired with its computed start time. -/
def runSched (nextStartTime : ℚ) : List (ℚ × ℚ) → List ((ℚ × ℚ) × ℚ)
  | [] => []
  | e :: rest =>
    let p := playAudioBuffer nextStartTime e.1 e.2
    (e, p.1) :: runSched p.2 rest

/-- The successive values taken by `nextStartTimeRef.current` while the
scheduler processes a list of fragments (including the initial value). -/
def nstTrace (nextStartTime : ℚ) : List (ℚ × ℚ) → List ℚ
  | [] => [nextStartTime]
  | e :: rest =>
    nextStartTime :: nstTrace (playAudioBuffer nextStartTime e.1 e.2).2 rest

lemma runSched_cons (nst : ℚ) (e : ℚ × ℚ) (rest : List (ℚ × ℚ)) :
    runSched nst (e :: rest) =
      (e, max nst e.1) :: runSched (max nst e.1 + e.2) rest := rfl

lemma runSched_head_start (nst : ℚ) (evs : List (ℚ × ℚ)) :
    ∀ x ∈ (runSched nst evs).head?, nst ≤ x.2 := by
  cases evs with
  | nil => intro x hx; simp [runSched] at hx
  | cons e rest =>
    intro x hx
    simp [runSched_cons] at hx
    subst hx
    exact le_max_left _ _

lemma nstTrace_head (nst : ℚ) (evs : List (ℚ × ℚ)) :
    (nstTrace nst evs).head? = some nst := by
  cases evs <;> rfl

/-- Consecutive scheduled fragments never overlap: each start time is at
least the previous start time plus the previous duration. -/
lemma runSched_chain (nst : ℚ) (evs : List (ℚ × ℚ)) :
    List.Chain' (fun a b => a.2 + a.1.2 ≤ b.2) (runSched nst evs) := by
  induction evs generalizing nst with
  | nil => simp [runSched]
  | cons e rest ih =>
    rw [runSched_cons]
    refine List.chain'_cons'.mpr ⟨?_, ih _⟩
    intro b hb
    exact runSched_head_start _ _ b hb

/-- With non-negative durations, nextStartTime is monotonically
non-decreasing across scheduling steps. -/
lemma nstTrace_chain (nst : ℚ) (evs : List (ℚ × ℚ))
    (h : ∀ e ∈ evs, 0 ≤ e.2) :
    List.Chain' (fun a b => a ≤ b) (nstTrace nst evs) := by
  induction evs generalizing nst with
  | nil => simp [nstTrace]
  | cons e rest ih =>
    rw [nstTrace]
    refine List.chain'_cons'.mpr ⟨?_, ih _ (fun x hx => h x (List.mem_cons_of_mem _ hx))⟩
    intro b hb
    rw [nstTrace_head] at hb
    cases hb
    calc nst ≤ max nst e.1 := le_max_left _ _
      _ ≤ max nst e.1 + e.2 :=
        le_add_of_nonneg_right (h e (List.mem_cons_self _ _))

/-- Every fragment starts no earlier than the clock value at its arrival. -/
lemma runSched_start_ge_now (nst : ℚ) (evs : List (ℚ × ℚ)) :
    ∀ x ∈ runSched nst evs, x.1.1 ≤ x.2 := by
  induction evs generalizing nst with
  | nil => simp [runSched]
  | cons e rest ih =>
    intro x hx
    rw [runSched_cons] at hx
    rcases List.mem_cons.mp hx with h1 | h2
    · subst h1; exact le_max_right _ _
    · exact ih _ x h2

/-- C1: each scheduled fragment's start time equals
`max(nextStartTime, outputClock.now())` and nextStartTime is advanced to
`start + duration` immediately upon scheduling; consequently, over any
fragment sequence with non-negative durations, nextStartTime is
monotonically non-decreasing, consecutive start times satisfy
`start[i] ≥ start[i-1] + duration[i-1]` (fragments never overlap), and
every start time is at least the clock value at the fragment's arrival. -/
theorem playAudioBuffer_schedule_invariants (nst : ℚ) (evs : List (ℚ × ℚ))
    (hdur : ∀ e ∈ evs, 0 ≤ e.2) :
    (∀ n now dur : ℚ, (playAudioBuffer n now dur).1 = max n now ∧
      (playAudioBuffer n now dur).2 = (playAudioBuffer n now dur).1 + dur) ∧
    List.Chain' (fun a b => a ≤ b) (nstTrace nst evs) ∧
    List.Chain' (fun a b => a.2 + a.1.2 ≤ b.2) (runSched nst evs) ∧
    (∀ x ∈ runSched nst evs, x.1.1 ≤ x.2) :=
  ⟨fun _ _ _ => ⟨rfl, rfl⟩, nstTrace_chain nst evs hdur,
    runSched_chain nst evs, runSched_start_ge_now nst evs⟩

/-- Witness for C1: two fragments, the second arriving after the first
ends (clock 3 versus nextStartTime 1), scheduled from nextStartTime 0. -/
theorem playAudioBuffer_schedule_invariants_witness :
    (∀ n now dur : ℚ, (playAudioBuffer n now dur).1 = max n now ∧
      (playAudioBuffer n now dur).2 = (playAudioBuffer n now dur).1 + dur) ∧
    List.Chain' (fun a b => a ≤ b)
      (nstTrace 0 [((0 : ℚ), (1 : ℚ)), ((3 : ℚ), (2 : ℚ))]) ∧
    List.Chain' (fun a b => a.2 + a.1.2 ≤ b.2)
      (runSched 0 [((0 : ℚ), (1 : ℚ)), ((3 : ℚ), (2 : ℚ))]) ∧
    (∀ x ∈ runSched 0 [((0 : ℚ), (1 : ℚ)), ((3 : ℚ), (2 : ℚ))],
      x.1.1 ≤ x.2) :=
  playAudioBuffer_schedule_invariants 0
    [((0 : ℚ), (1 : ℚ)), ((3 : ℚ), (2 : ℚ))] (by decide)

/- ### Audio decode with raw-float fallback (client, `decodeAudioData`,
lines 258-280) -/

/-- A decoded audio buffer as produced by the Web Audio API: channel
count, frame count and sample rate (the sample payload is irrelevant to
the claims and omitted). -/
structure AudioBuffer where
  numberOfChannels : Nat
  length : Nat
  sampleRate : Nat
deriving DecidableEq

/-- Constructing `new Float32Array(buffer)` from a byte buffer: yields the
element count when the byte length is a multiple of 4, otherwise raises a
RangeError (the error text models the runtime's message). -/
def float32FromBytes (byteLen : Nat) : Except String Nat :=
  if byteLen % 4 = 0 then Except.ok (byteLen / 4)
  else Except.error "byte length of Float32Array should be a multiple of 4"

/-- The Web Audio `createBuffer(channels, frames, rate)` call: raises a
NotSupportedError on a zero frame count (text models the runtime). -/
def createBuffer (numChannels frames rate : Nat) : Except String AudioBuffer :=
  if frames = 0 then
    Except.error "createBuffer: number of frames must be positive"
  else Except.ok ⟨numChannels, frames, rate⟩

/-- The raw-float fallback path of `decodeAudioData` (lines 267-273):
reinterpret the bytes as Float32 PCM and wrap them in a mono buffer at
24kHz. -/
def decodeFallback (byteLen : Nat) : Except String AudioBuffer :=
  match float32FromBytes byteLen with
  | Except.error e => Except.error e
  | Except.ok n => createBuffer 1 n 24000

/-- The client `decodeAudioData` (lines 258-280).  The container decode is
the external `outputAudioContext.decodeAudioData` call, supplied here as
its result; on its failure the raw-float fallback runs; if that also
fails, the code throws `new Error('Audio decode failed: ' + err.message)`
— note the fallback error is dropped (only logged to the console). -/
def decodeAudioData (containerResult : Except String AudioBuffer)
    (byteLen : Nat) : Except String AudioBuffer :=
  match containerResult with
  | Except.ok buf => Except.ok buf
  | Except.error err =>
    match decodeFallback byteLen with
    | Except.ok buf => Except.ok buf
    | Except.error _ => Except.error ("Audio decode failed: " ++ err)

/-- C3 counterexample: on a 6-byte buffer both decode paths fail, and the
resulting error message carries only the original container-decode
reason — the fallback failure reason is not contained in it, contrary to
the claim that the error carries both reasons. -/
theorem decodeAudioData_error_lacks_fallback_reason :
    decodeFallback 6 =
      Except.error "byte length of Float32Array should be a multiple of 4" ∧
    decodeAudioData (Except.error "container boom") 6 =
      Except.error "Audio decode failed: container boom" ∧
    ¬ List.IsInfix
        ("byte length of Float32Array should be a multiple of 4").toList
        ("Audio decode failed: container boom").toList := by
  refine ⟨rfl, rfl, ?_⟩
  decide

/-- C3 amended: a standard container decode is attempted first (success
passes straight through); on container failure the bytes are
reinterpreted as 32-bit float PCM in a mono buffer at 24kHz (one sample
per 4 bytes) whenever the byte length is a positive multiple of 4; and
when both paths fail, the operation fails with a DecodeError built from
the original failure reason only (`"Audio decode failed: " ++ original`),
which contains the original reason as a substring; the fallback failure
reason is logged but not attached. -/
theorem decodeAudioData_fallback_and_error (e : String) (len : Nat)
    (hm : len % 4 ≠ 0) :
    (∀ b, decodeAudioData (Except.ok b) len = Except.ok b) ∧
    (∀ n : Nat, n % 4 = 0 → n ≠ 0 →
      decodeAudioData (Except.error e) n = Except.ok ⟨1, n / 4, 24000⟩) ∧
    decodeAudioData (Except.error e) len =
      Except.error ("Audio decode failed: " ++ e) ∧
    List.IsInfix e.toList ("Audio decode failed: " ++ e).toList := by
  refine ⟨fun _ => rfl, ?_, ?_, ?_⟩
  · intro n h4 h0
    have hq : n / 4 ≠ 0 := by omega
    simp [decodeAudioData, decodeFallback, float32FromBytes, createBuffer,
      h4, hq]
  · simp [decodeAudioData, decodeFallback, float32FromBytes, hm]
  · have : ("Audio decode failed: " ++ e).toList =
        ("Audio decode failed: ").toList ++ e.toList := by
      simp [String.toList]
    rw [this]
    exact (List.suffix_append _ _).isInfix

/-- Witness for the amended C3 at a concrete failing input. -/
theorem decodeAudioData_fallback_and_error_witness :
    decodeAudioData (Except.error "boom") 6 =
      Except.error "Audio decode failed: boom" :=
  (decodeAudioData_fallback_and_error "boom" 6 (by decide)).2.2.1

/- ### Session Relay turn collection (server, `handleTurn`, lines 54-69) -/

/-- `handleTurn` drains the response queue one message at a time
(`waitMessage`), pushes each onto `turns`, forwards an `audio` envelope
for each message carrying `data`, and stops after the first message whose
`serverContent.turnComplete` is set.  The queue argument is the sequence of
fragments in the order the upstream `onmessage` callback enqueued them.
Returns `none` when the queue holds no completion marker (the real loop
would wait forever); otherwise the collected turn, the envelopes sent, and
the untouched remainder of the queue. -/
def handleTurn : List GenMessage →
    Option (List GenMessage × List Envelope × List GenMessage)
  | [] => none
  | m :: rest =>
    if m.turnComplete then some ([m], turnSends m, rest)
    else
      match handleTurn rest with
      | none => none
      | some (ts, ss, r) => some (m :: ts, turnSends m ++ ss, r)

lemma handleTurn_ne_nil {q turns rest : List GenMessage} {sends : List Envelope}
    (h : handleTurn q = some (turns, sends, rest)) : turns ≠ [] := by
  cases q with
  | nil => simp [handleTurn] at h
  | cons m rest' =>
    rw [handleTurn] at h
    by_cases hc : m.turnComplete
    · simp [hc] at h
      intro hnil
      rw [hnil] at h
      exact absurd h.1 (by simp)
    · simp [hc] at h
      cases hm : handleTurn rest' with
      | none => rw [hm] at h; simp at h
      | some v =>
        rw [hm] at h
        obtain ⟨ts, ss, r⟩ := v
        simp at h
        intro hnil
        rw [← h.1] at hnil
        simp at hnil

/-- C2: for every turn, `handleTurn` forwards exactly the audio-carrying
fragments of the collected turn, as Audio envelopes, in the order the
upstream `onmessage` callback delivered them; the collected turn is the
prefix of the queue up to and including the first completion marker, every
fragment before the marker is collected before the marker is observed, and
no fragment after the marker is forwarded (the remainder of the queue is
returned untouched). -/
theorem handleTurn_forwards_in_order
    (q turns rest : List GenMessage) (sends : List Envelope)
    (h : handleTurn q = some (turns, sends, rest)) :
    q = turns ++ rest ∧
    sends = turns.filterMap (fun m => m.data.map Envelope.audio) ∧
    (∀ m ∈ turns.dropLast, m.turnComplete = false) ∧
    (∀ m ∈ turns.getLast?, m.turnComplete = true) := by
  induction q generalizing turns sends rest with
  | nil => simp [handleTurn] at h
  | cons m q' ih =>
    rw [handleTurn] at h
    by_cases hc : m.turnComplete
    · simp [hc] at h
      obtain ⟨h1, h2, h3⟩ := h
      subst h1; subst h2; subst h3
      refine ⟨rfl, ?_, by simp, ?_⟩
      · cases hd : m.data <;> simp [turnSends, hd]
      · intro x hx
        simp at hx
        subst hx
        exact hc
    · cases hm : handleTurn q' with
      | none => rw [hm] at h; simp [hc] at h
      | some v =>
        obtain ⟨ts, ss, r⟩ := v
        rw [hm] at h
        simp [hc] at h
        obtain ⟨h1, h2, h3⟩ := h
        subst h1; subst h2; subst h3
        obtain ⟨ih1, ih2, ih3, ih4⟩ := ih ts r ss hm
        have hne : ts ≠ [] := handleTurn_ne_nil hm
        obtain ⟨t, ts', rfl⟩ := List.exists_cons_of_ne_nil hne
        refine ⟨by rw [ih1]; rfl, ?_, ?_, ?_⟩
        · cases hd : m.data <;>
            simp [turnSends, hd, List.filterMap_cons, ih2]
        · intro x hx
          rw [List.dropLast_cons₂] at hx
          rcases List.mem_cons.mp hx with h1 | h2
          · subst h1
            exact Bool.not_eq_true _ ▸ (by simpa using hc)
          · exact ih3 x h2
        · intro x hx
          rw [List.getLast?_cons_cons] at hx
          exact ih4 x hx

/-- Witness for C2 at a concrete queue: two audio fragments, an empty
status fragment, a marker fragment carrying audio, then a late fragment
that is left in the queue and not forwarded. -/
theorem handleTurn_forwards_in_order_witness :
    ([⟨some "a", false⟩, ⟨none, false⟩, ⟨some "b", true⟩,
      ⟨some "late", false⟩] : List GenMessage) =
      [⟨some "a", false⟩, ⟨none, false⟩, ⟨some "b", true⟩] ++
        [⟨some "late", false⟩] ∧
    [Envelope.audio "a", Envelope.audio "b"] =
      ([⟨some "a", false⟩, ⟨none, false⟩, ⟨some "b", true⟩] :
          List GenMessage).filterMap (fun m => m.data.map Envelope.audio) ∧
    (∀ m ∈ ([⟨some "a", false⟩, ⟨none, false⟩, ⟨some "b", true⟩] :
        List GenMessage).dropLast, m.turnComplete = false) ∧
    (∀ m ∈ ([⟨some "a", false⟩, ⟨none, false⟩, ⟨some "b", true⟩] :
        List GenMessage).getLast?, m.turnComplete = true) :=
  handleTurn_forwards_in_order
    [⟨some "a", false⟩, ⟨none, false⟩, ⟨some "b", true⟩, ⟨some "late", false⟩]
    [⟨some "a", false⟩, ⟨none, false⟩, ⟨some "b", true⟩]
    [⟨some "late", false⟩]
    [Envelope.audio "a", Envelope.audio "b"]
    (by decide)

/- ### Concurrent turn collections (server, `ws.on('message')` handler,
lines 98-141).  The `'message'` listener is an async function; the event
emitter does not await it, so a second inbound audio message starts a new
handler invocation — and with it a new `handleTurn` loop — while the prior
invocation is still awaiting fragments.  The machine below models one
session's queue together with the set of in-flight turn-collection loops:
`clientAudio` is an inbound client message reaching its `handleTurn` call,
`upstream m` is the `onmessage` callback enqueueing a fragment, and
`poll i` is one `waitMessage` iteration of loop `i` that finds the queue
non-empty and shifts its head. -/

/-- One in-flight `handleTurn` loop: the envelopes it has forwarded so far
and whether it has observed a completion marker and returned. -/
structure TurnTask where
  sent : List Envelope
  done : Bool
deriving DecidableEq

/-- One session's relay state: the shared `responseQueue` and the
in-flight turn-collection loops in spawn order. -/
structure RelayState where
  queue : List GenMessage
  tasks : List TurnTask
deriving DecidableEq

/-- Events that drive one session's relay state. -/
inductive RelayEvent where
  | clientAudio
  | upstream (m : GenMessage)
  | poll (i : Nat)
deriving DecidableEq

def relayStep (s : RelayState) : RelayEvent → RelayState
  | RelayEvent.clientAudio => { s with tasks := s.tasks ++ [⟨[], false⟩] }
  | RelayEvent.upstream m => { s with queue := s.queue ++ [m] }
  | RelayEvent.poll i =>
    match s.tasks[i]? with
    | none => s
    | some t =>
      if t.done then s
      else
        match s.queue with
        | [] => s
        | m :: rest =>
          { queue := rest,
            tasks := s.tasks.set i ⟨t.sent ++ turnSends m, m.turnComplete⟩ }

def relayRun (s : RelayState) (evs : List RelayEvent) : RelayState :=
  evs.foldl relayStep s

/-- Number of turn-collection loops that have not yet observed a
completion marker. -/
def activeCollections (s : RelayState) : Nat :=
  s.tasks.countP (fun t => !t.done)

/-- C4 counterexample: two inbound audio messages with no fragment in
between leave two turn collections in flight at once, refuting strict
sequentiality; moreover the second collection then consumes the fragment
belonging to the first turn. -/
theorem relay_collections_interleave :
    activeCollections (relayRun ⟨[], []⟩
      [RelayEvent.clientAudio, RelayEvent.clientAudio]) = 2 ∧
    ¬ activeCollections (relayRun ⟨[], []⟩
        [RelayEvent.clientAudio, RelayEvent.clientAudio]) ≤ 1 ∧
    (relayRun ⟨[], []⟩
      [RelayEvent.clientAudio, RelayEvent.clientAudio,
        RelayEvent.upstream ⟨some "f1", false⟩, RelayEvent.poll 1]).tasks =
      [⟨[], false⟩, ⟨[Envelope.audio "f1"], false⟩] := by
  decide

/-- C4 amended: a new inbound audio submission starts its turn-collection
loop immediately — the count of in-flight collections grows by one
regardless of whether a prior collection has finished — and any in-flight,
unfinished collection that polls a non-empty queue consumes the head
fragment, so concurrent collections compete for fragments from the shared
queue. -/
theorem relayStep_spawns_regardless (s : RelayState) (i : Nat)
    (t : TurnTask) (m : GenMessage) (q' : List GenMessage)
    (ht : s.tasks[i]? = some t) (hd : t.done = false)
    (hq : s.queue = m :: q') :
    activeCollections (relayStep s RelayEvent.clientAudio) =
      activeCollections s + 1 ∧
    (relayStep s (RelayEvent.poll i)).queue = q' ∧
    (relayStep s (RelayEvent.poll i)).tasks =
      s.tasks.set i ⟨t.sent ++ turnSends m, m.turnComplete⟩ := by
  refine ⟨?_, ?_, ?_⟩
  · simp [activeCollections, relayStep, List.countP_append]
  · simp [relayStep, ht, hd, hq]
  · simp [relayStep, ht, hd, hq]

/-- Witness for the amended C4: a state with two unfinished collections
and one queued fragment; the second collection polls and takes it. -/
theorem relayStep_spawns_regardless_witness :
    activeCollections (relayStep
      ⟨[⟨some "f1", false⟩], [⟨[], false⟩, ⟨[], false⟩]⟩
      RelayEvent.clientAudio) =
      activeCollections
        ⟨[⟨some "f1", false⟩], [⟨[], false⟩, ⟨[], false⟩]⟩ + 1 ∧
    (relayStep ⟨[⟨some "f1", false⟩], [⟨[], false⟩, ⟨[], false⟩]⟩
      (RelayEvent.poll 1)).queue = [] ∧
    (relayStep ⟨[⟨some "f1", false⟩], [⟨[], false⟩, ⟨[], false⟩]⟩
      (RelayEvent.poll 1)).tasks =
      ([⟨[], false⟩, ⟨[], false⟩] : List TurnTask).set 1
        ⟨[] ++ turnSends ⟨some "f1", false⟩, false⟩ :=
  relayStep_spawns_regardless
    ⟨[⟨some "f1", false⟩], [⟨[], false⟩, ⟨[], false⟩]⟩ 1
    ⟨[], false⟩ ⟨some "f1", false⟩ [] (by decide) rfl rfl

/- ### Connection close and post-close sends (server, `ws.on('close')`
handler, lines 143-147, and the upstream callbacks, lines 79-88).
The close handler sets `closed = true` and calls `session.close()` under a
null guard; the `closed` flag is never consulted anywhere else, and
neither the upstream callbacks (`onclose`, `onerror`) nor an in-flight
`handleTurn` loop check it before calling `ws.send`. -/

/-- Per-connection relay state relevant to close handling: whether the
client WebSocket has closed, whether the upstream session handle is
non-null (it is never reset to null by the code), how many times
`session.close()` has been called, and every envelope the relay has
handed to `ws.send` (whether or not the transport can still deliver it). -/
structure ConnState where
  wsClosed : Bool
  sessionEstablished : Bool
  closeCalls : Nat
  sendAttempts : List Envelope
deriving DecidableEq

/-- Events on one connection after setup: the client WebSocket `close`
event, the upstream `onclose` and `onerror` callbacks, and an in-flight
`handleTurn` loop forwarding a fragment it dequeued. -/
inductive ConnEvent where
  | clientClose
  | upstreamClosed (reason : String)
  | upstreamError (msg : String)
  | forwardFragment (m : GenMessage)
deriving DecidableEq

/-- The envelopes a given event hands to `ws.send`. -/
def eventSends : ConnEvent → List Envelope
  | ConnEvent.clientClose => []
  | ConnEvent.upstreamClosed reason =>
      [Envelope.status ("Session closed: " ++ reason)]
  | ConnEvent.upstreamError msg => [Envelope.error msg]
  | ConnEvent.forwardFragment m => turnSends m

def connStep (s : ConnState) : ConnEvent → ConnState
  | ConnEvent.clientClose =>
    { s with wsClosed := true,
             closeCalls :=
               if s.sessionEstablished then s.closeCalls + 1
               else s.closeCalls }
  | e => { s with sendAttempts := s.sendAttempts ++ eventSends e }

def connRun (s : ConnState) (evs : List ConnEvent) : ConnState :=
  evs.foldl connStep s

/-- True exactly on the client `close` event. -/
def isClientClose : ConnEvent → Bool
  | ConnEvent.clientClose => true
  | _ => false

/-- Concatenation of the envelopes every event in a trace hands to
`ws.send`. -/
def allEventSends : List ConnEvent → List Envelope
  | [] => []
  | e :: evs => eventSends e ++ allEventSends evs

/-- C5 counterexample: after the client connection closes, the upstream
`onclose` callback (fired by the very `session.close()` the close handler
issued) still hands a Status envelope to `ws.send`, so the relay does
attempt further envelopes after close. -/
theorem conn_sends_after_close :
    (connRun ⟨false, true, 0, []⟩ [ConnEvent.clientClose]).wsClosed = true ∧
    (connRun ⟨false, true, 0, []⟩ [ConnEvent.clientClose]).sendAttempts = [] ∧
    (connRun ⟨false, true, 0, []⟩
      [ConnEvent.clientClose, ConnEvent.upstreamClosed "bye"]).sendAttempts =
      [Envelope.status ("Session closed: bye")] := by
  decide

lemma connRun_cons (s : ConnState) (e : ConnEvent) (evs : List ConnEvent) :
    connRun s (e :: evs) = connRun (connStep s e) evs := rfl

lemma connStep_sessionEstablished (s : ConnState) (e : ConnEvent) :
    (connStep s e).sessionEstablished = s.sessionEstablished := by
  cases e <;> rfl

lemma connRun_closeCalls (s : ConnState) (evs : List ConnEvent) :
    (connRun s evs).closeCalls = s.closeCalls +
      (if s.sessionEstablished then evs.countP isClientClose else 0) := by
  induction evs generalizing s with
  | nil => simp [connRun]
  | cons e evs ih =>
    rw [connRun_cons, ih]
    cases e with
    | clientClose =>
      by_cases hs : s.sessionEstablished
      · simp [connStep, isClientClose, List.countP_cons, hs]
        omega
      · simp [connStep, isClientClose, List.countP_cons, hs]
    | upstreamClosed reason =>
      simp [connStep, isClientClose, List.countP_cons]
    | upstreamError msg =>
      simp [connStep, isClientClose, List.countP_cons]
    | forwardFragment m =>
      simp [connStep, isClientClose, List.countP_cons]

lemma connRun_sendAttempts (s : ConnState) (evs : List ConnEvent) :
    (connRun s evs).sendAttempts = s.sendAttempts ++ allEventSends evs := by
  induction evs generalizing s with
  | nil => simp [connRun, allEventSends]
  | cons e evs ih =>
    rw [connRun_cons, ih, allEventSends]
    cases e <;> simp [connStep, eventSends, List.append_assoc]

/-- C5 amended: the upstream session is terminated at most once per
client-close event — exactly once when the upstream session was
established, and zero times (the null guard makes the call safe to skip)
when it never was; since the transport fires `close` once, the
termination happens at most once.  However, the relay's envelope output
is independent of the closed state: every upstream callback and in-flight
forward still hands its envelope to `ws.send` after close, and such
envelopes go undelivered only because the transport discards sends on a
closed socket. -/
theorem connRun_close_once_but_sends_continue (s : ConnState)
    (evs : List ConnEvent) (hone : evs.countP isClientClose ≤ 1)
    (h0 : s.closeCalls = 0) :
    (connRun s evs).closeCalls ≤ 1 ∧
    (connRun s evs).closeCalls =
      (if s.sessionEstablished then evs.countP isClientClose else 0) ∧
    (connRun s evs).sendAttempts = s.sendAttempts ++ allEventSends evs := by
  refine ⟨?_, ?_, connRun_sendAttempts s evs⟩
  · rw [connRun_closeCalls, h0]
    by_cases hs : s.sessionEstablished
    · simp [hs]
      omega
    · simp [hs]
  · rw [connRun_closeCalls, h0]
    simp

/-- Witness for the amended C5: an established session, one close event,
then a post-close upstream `onclose` callback. -/
theorem connRun_close_once_but_sends_continue_witness :
    (connRun ⟨false, true, 0, []⟩
      [ConnEvent.clientClose, ConnEvent.upstreamClosed "bye"]).closeCalls ≤ 1 ∧
    (connRun ⟨false, true, 0, []⟩
      [ConnEvent.clientClose, ConnEvent.upstreamClosed "bye"]).closeCalls =
      (if (true : Bool) then
        ([ConnEvent.clientClose,
          ConnEvent.upstreamClosed "bye"] : List ConnEvent).countP
          isClientClose else 0) ∧
    (connRun ⟨false, true, 0, []⟩
      [ConnEvent.clientClose, ConnEvent.upstreamClosed "bye"]).sendAttempts =
      [] ++ allEventSends [ConnEvent.clientClose,
        ConnEvent.upstreamClosed "bye"] :=
  connRun_close_once_but_sends_continue ⟨false, true, 0, []⟩
    [ConnEvent.clientClose, ConnEvent.upstreamClosed "bye"]
    (by decide) rfl

/- ### Connection setup and mid-session error handling (server,
`wss.on('connection')` lines 71-96 and the catch in `ws.on('message')`
lines 137-140) -/

/-- Observable relay actions on one connection, in program order. -/
inductive Action where
  | send (env : Envelope)
  | closeWs
  | connectUpstream
  | submitUpstream
  | collectTurn
deriving DecidableEq

/-- The connection handler's setup phase (lines 71-96): one
`ai.live.connect` attempt; on failure the catch block sends an Error
envelope, closes the client WebSocket and returns; on success it falls
through to register the message/close handlers. -/
def connectionSetup (r : Except String Unit) : List Action :=
  Action.connectUpstream ::
    (match r with
     | Except.ok _ => []
     | Except.error e => [Action.send (Envelope.error e), Action.closeWs])

/-- C6: a failure while establishing the upstream session produces exactly
one Error envelope to the client followed by closing the client
connection, with exactly one connect attempt (no retry) on every path;
the success path does not close the connection. -/
theorem connectionSetup_failure_fatal (e : String) :
    connectionSetup (Except.error e) =
      [Action.connectUpstream, Action.send (Envelope.error e),
        Action.closeWs] ∧
    (∀ r : Except String Unit,
      (connectionSetup r).count Action.connectUpstream = 1) ∧
    Action.closeWs ∉ connectionSetup (Except.ok ()) := by
  refine ⟨rfl, ?_, by decide⟩
  intro r
  cases r <;> simp [connectionSetup, List.count_cons]

/-- The body of the `ws.on('message')` handler (lines 98-141): on success
the audio is normalized, submitted upstream, and turn collection runs; any
thrown error reaches the catch block, which sends an Error envelope and
nothing else — in particular it never closes the connection. -/
def onClientMessage (r : Except String Unit) : List Action :=
  match r with
  | Except.ok _ => [Action.submitUpstream, Action.collectTurn]
  | Except.error e => [Action.send (Envelope.error e)]

/-- C7: a failure while encoding or resubmitting audio mid-session is
reported as a single Error envelope and the handler performs no close on
any path, so the client may keep sending audio. -/
theorem onClientMessage_error_keeps_connection (e : String) :
    onClientMessage (Except.error e) = [Action.send (Envelope.error e)] ∧
    (∀ r : Except String Unit, Action.closeWs ∉ onClientMessage r) := by
  refine ⟨rfl, ?_⟩
  intro r
  cases r <;> simp [onClientMessage]

/- ### Capture pipeline (client, `startRecording` lines 327-389 and the
`scriptProcessorNode.onaudioprocess` callback lines 348-373) -/

/-- One captured float sample converted to 16-bit PCM (line 358):
`Math.max(-32768, Math.min(32767, Math.floor(pcmData[i] * 32767)))`. -/
def encodeSample (x : ℚ) : ℤ :=
  max (-32768) (min 32767 ⌊x * 32767⌋)

/-- The sample conversion as the claim words it: scale by 32767, floor,
then clamp the result to the signed-16-bit range. -/
def clampSpecSample (x : ℚ) : ℤ :=
  min (max ⌊x * 32767⌋ (-32768)) 32767

/-- A WAV container as built by `wav.fromScratch(channels, rate, depth,
samples)`. -/
structure WavFile where
  numChannels : Nat
  sampleRate : Nat
  bitDepth : Nat
  samples : List ℤ
deriving DecidableEq

/-- The WAV frame the capture tick builds (lines 355-363):
`wav.fromScratch(1, 16000, '16', int16Array)` over the converted
samples. -/
def captureWav (pcm : List ℚ) : WavFile :=
  ⟨1, 16000, 16, pcm.map encodeSample⟩

lemma encodeSample_eq_clampSpecSample (x : ℚ) :
    encodeSample x = clampSpecSample x := by
  unfold encodeSample clampSpecSample
  omega

/-- C8: each captured sample is encoded as
`clamp(floor(x * 32767), -32768, 32767)` — the code's
`max(-32768, min(32767, floor(x * 32767)))` agrees with that formula and
always lands in the signed-16-bit range — and the frame is packaged as a
single-channel 16kHz 16-bit PCM container. -/
theorem captureWav_encodes_and_packages (pcm : List ℚ) :
    (captureWav pcm).numChannels = 1 ∧
    (captureWav pcm).sampleRate = 16000 ∧
    (captureWav pcm).bitDepth = 16 ∧
    (captureWav pcm).samples = pcm.map clampSpecSample ∧
    ∀ x : ℚ, -32768 ≤ encodeSample x ∧ encodeSample x ≤ 32767 := by
  refine ⟨rfl, rfl, rfl, ?_, ?_⟩
  · simp only [captureWav]
    exact List.map_congr_left fun x _ => encodeSample_eq_clampSpecSample x
  · intro x
    unfold encodeSample
    constructor <;> omega

/-- Client-side capture state touched by `startRecording` and
`stopRecording`: the real-time recording flag (`isRecordingRef`), whether
the capture tap (script processor node and media stream) is installed,
and how many frames have been sent. -/
structure CaptureState where
  isRecording : Bool
  tapInstalled : Bool
  framesSent : Nat
deriving DecidableEq

/-- `startRecording` (lines 327-389): the first statement returns
immediately when `isRecordingRef.current` is already set; otherwise the
capture tap is installed on microphone grant, and the catch path runs
`stopRecording`, releasing everything. -/
def startRecording (s : CaptureState) (micGranted : Bool) : CaptureState :=
  if s.isRecording then s
  else if micGranted then
    { s with isRecording := true, tapInstalled := true }
  else
    { s with isRecording := false, tapInstalled := false }

/-- C9: starting capture while already recording is a no-op — the state is
returned unchanged (so no additional tap is installed and no additional
frame is emitted), whatever the microphone outcome would have been. -/
theorem startRecording_idempotent (s : CaptureState) (micGranted : Bool)
    (h : s.isRecording = true) :
    startRecording s micGranted = s ∧
    (startRecording s micGranted).framesSent = s.framesSent := by
  simp [startRecording, h]

/-- Witness for C9: a running capture state is untouched by a duplicate
start call. -/
theorem startRecording_idempotent_witness :
    startRecording ⟨true, true, 5⟩ true = ⟨true, true, 5⟩ ∧
    (startRecording ⟨true, true, 5⟩ true).framesSent =
      (⟨true, true, 5⟩ : CaptureState).framesSent :=
  startRecording_idempotent ⟨true, true, 5⟩ true rfl

/-- The client WebSocket ready states. -/
inductive WsReady where
  | CONNECTING
  | OPEN
  | CLOSING
  | CLOSED
deriving DecidableEq

/-- What the capture tick has sent and surfaced so far: WAV frames handed
to `ws.send`, and user-visible errors. -/
structure SendLog where
  outbox : List WavFile
  surfacedErrors : List String
deriving DecidableEq

/-- The `onaudioprocess` capture tick (lines 348-373): returns immediately
when not recording; otherwise encodes the frame and sends it only when
`wsRef.current?.readyState === WebSocket.OPEN` (`none` models a null
`wsRef.current`).  On any other ready state the frame is simply not sent:
there is no queue, no retry, and the catch path only logs to the console,
surfacing no error. -/
def onaudioprocess (isRecording : Bool) (wsState : Option WsReady)
    (pcm : List ℚ) (log : SendLog) : SendLog :=
  if isRecording = false then log
  else if wsState = some WsReady.OPEN then
    { log with outbox := log.outbox ++ [captureWav pcm] }
  else log

/-- C10: a capture tick firing while the WebSocket is not OPEN (null,
connecting, closing or closed) leaves the send log untouched — the
encoded frame is neither queued nor retried, and no error is surfaced. -/
theorem onaudioprocess_discards_when_not_open (isRecording : Bool)
    (wsState : Option WsReady) (pcm : List ℚ) (log : SendLog)
    (h1 : isRecording = true) (h2 : wsState ≠ some WsReady.OPEN) :
    onaudioprocess isRecording wsState pcm log = log := by
  simp [onaudioprocess, h1, h2]

/-- Witness for C10: a tick during recording with a null WebSocket
reference changes nothing. -/
theorem onaudioprocess_discards_when_not_open_witness :
    onaudioprocess true none [(1 : ℚ) / 2] ⟨[], []⟩ =
      (⟨[], []⟩ : SendLog) :=
  onaudioprocess_discards_when_not_open true none [(1 : ℚ) / 2]
    ⟨[], []⟩ rfl (by decide)

end GeminiLive
